import Mathlib

/-!
Verification of the flattest-window search of the Minecraft_PCG repository.

The repository repeats one algorithm across files: a brute-force sliding-window
scan of a 2-D height grid that returns the offset of the k-by-k window with the
least mean gradient magnitude, subject to a water-exclusion mask.  This file
embeds the relevant Python functions:

* `find_flattest_subarray`      - 2height_maps.py (the pure scan);
* `find_flattest_subarray_hm`   - heightmap.py (same scan followed by a
  tree-clearing pass that places blocks when the chosen window holds leaves);
* `find_flattest_subarray_test` - test.py (scan restricted to offsets at least
  4 cells from every border, with an automatic window-size reduction);
* `find_best_location`          - cozy_cottage.py (no water mask, windows with
  mean height outside the band 60..100 skipped, default position (0,0));
* `find_best_location_new`      - new_cottage.py (as cozy, without the band).

Heights are embedded as rationals (the numpy arrays hold integers, and numpy's
gradient halves differences); the per-cell gradient magnitude and the window
score live in `Real` because of the square root.  numpy raises ValueError when
`np.gradient` is applied along an axis with fewer than 2 samples, so every
window evaluation with k < 2 aborts; this is modelled by the error
`PyError.gradientValueError`, distinct from the explicit size check
(`PyError.valueError`) and from the print-and-exit path taken when no window
passes the water constraint (`PyError.noValidSite`).
-/

/-- Errors of the embedded scripts.  `valueError` is the explicit
`raise ValueError` of the size checks, `gradientValueError` is the ValueError
numpy raises when a window axis has fewer than two samples, and `noValidSite`
is the print-and-exit path taken when every window is rejected. -/
inductive PyError where
  | valueError
  | gradientValueError
  | noValidSite
deriving DecidableEq

/-- Rectangular height grid: `entry i j` is the elevation at row `i`,
column `j`; only indices below `rows`/`cols` are meaningful. -/
structure Grid where
  rows : ℕ
  cols : ℕ
  entry : ℕ → ℕ → ℚ

/-- Auxiliary 2-D arrays derived from the world slice (the water mask
`MOTION_BLOCKING - OCEAN_FLOOR` and the leaves mask
`MOTION_BLOCKING - MOTION_BLOCKING_NO_LEAVES`). -/
def Mask : Type := ℕ → ℕ → ℚ

/-- Cell `(i, j)` of the k-by-k sub-array whose top-left corner is `(r, c)`. -/
def subEntry (g : Grid) (r c i j : ℕ) : ℚ := g.entry (r + i) (c + j)

/-- All k*k values of the window at `(r, c)`, row-major. -/
def windowVals (g : Grid) (r c k : ℕ) : List ℚ :=
  (List.range k).flatMap fun i => (List.range k).map fun j => subEntry g r c i j

/-- Mean of a list of rationals (`np.mean`); division by zero yields 0. -/
def meanQ (xs : List ℚ) : ℚ := xs.sum / xs.length

/-- Model of `np.max` on the window at `(r, c)`. -/
def windowMax (g : Grid) (r c k : ℕ) : ℚ :=
  (windowVals g r c k).foldl max (subEntry g r c 0 0)

/-- Model of `np.mean` on the window at `(r, c)` (used by the cottage
variants through `avg_height`). -/
def avgHeight (g : Grid) (r c k : ℕ) : ℚ := meanQ (windowVals g r c k)

/-- Model of `np.all(current_water_subarray == 0)`. -/
def waterAllZero (w : Mask) (r c k : ℕ) : Bool :=
  (List.range k).all fun i => (List.range k).all fun j =>
    decide (w (r + i) (c + j) = 0)

/-- Model of `np.any(optimal_area_leaves > 0)`. -/
def anyLeaves (l : Mask) (r c k : ℕ) : Bool :=
  (List.range k).any fun i => (List.range k).any fun j =>
    decide (0 < l (r + i) (c + j))

/-- Row-axis component of `np.gradient` on the k-by-k window at `(r, c)`:
one-sided differences on the first and last row, central differences inside
(defined for k at least 2, the domain on which numpy does not raise). -/
def gradRow (g : Grid) (r c k i j : ℕ) : ℚ :=
  if i = 0 then subEntry g r c 1 j - subEntry g r c 0 j
  else if i = k - 1 then subEntry g r c (k - 1) j - subEntry g r c (k - 2) j
  else (subEntry g r c (i + 1) j - subEntry g r c (i - 1) j) / 2

/-- Column-axis component of `np.gradient` on the k-by-k window at `(r, c)`. -/
def gradCol (g : Grid) (r c k i j : ℕ) : ℚ :=
  if j = 0 then subEntry g r c i 1 - subEntry g r c i 0
  else if j = k - 1 then subEntry g r c i (k - 1) - subEntry g r c i (k - 2)
  else (subEntry g r c i (j + 1) - subEntry g r c i (j - 1)) / 2

/-- Per-cell gradient magnitude `np.sqrt(gx**2 + gy**2)`. -/
noncomputable def gradMagnitude (g : Grid) (r c k i j : ℕ) : ℝ :=
  Real.sqrt ((gradCol g r c k i j : ℝ) ^ 2 + (gradRow g r c k i j : ℝ) ^ 2)

/-- Window score `np.mean(gradient_magnitude)`: the sum of the k*k per-cell
magnitudes divided by the cell count. -/
noncomputable def avgGradient (g : Grid) (r c k : ℕ) : ℝ :=
  (∑ i ∈ Finset.range k, ∑ j ∈ Finset.range k, gradMagnitude g r c k i j) /
    (k ^ 2 : ℝ)

/-- Data tracked for the best window found so far: its offset, its score
`min_gradient_magnitude` and `max_value = np.max(current_subarray)` (the
returned `flattest_subarray` is the window of `pos`, determined by `pos`). -/
structure SearchResult where
  pos : ℕ × ℕ
  score : ℝ
  maxVal : ℚ

/-- Loop body of the scan.  The running minimum starts at `float('inf')`,
modelled by `none`: the first comparison `avg_gradient < inf` always holds, so
against `none` only the water test decides.  The update fires exactly when
`avg_gradient < min_gradient_magnitude and np.all(water == 0)`. -/
noncomputable def updateBest (g : Grid) (w : Mask) (k : ℕ)
    (acc : Option SearchResult) (p : ℕ × ℕ) : Option SearchResult :=
  match acc with
  | none =>
      if waterAllZero w p.1 p.2 k then
        some ⟨p, avgGradient g p.1 p.2 k, windowMax g p.1 p.2 k⟩
      else none
  | some b =>
      if avgGradient g p.1 p.2 k < b.score ∧ waterAllZero w p.1 p.2 k then
        some ⟨p, avgGradient g p.1 p.2 k, windowMax g p.1 p.2 k⟩
      else some b

/-- Nested loop driver.  Each iteration first calls `np.gradient` on the
k-by-k window, so when k < 2 the first iteration raises numpy's ValueError;
otherwise the iteration performs the update and continues. -/
noncomputable def scanLoop (g : Grid) (w : Mask) (k : ℕ) :
    List (ℕ × ℕ) → Option SearchResult → Except PyError (Option SearchResult)
  | [], acc => .ok acc
  | p :: ps, acc =>
      if k < 2 then .error .gradientValueError
      else scanLoop g w k ps (updateBest g w k acc p)

/-- Row-major list of pairs `(r, c)` with `r < nr` and `c < nc`, the order the
two nested `for` loops enumerate. -/
def offsets (nr nc : ℕ) : List (ℕ × ℕ) :=
  (List.range nr).flatMap fun r => (List.range nc).map fun c => (r, c)

/-- Candidate top-left offsets of the scan:
`range(max_start_row + 1) x range(max_start_col + 1)` with
`max_start_row = num_rows - sub_array_size` (and similarly for columns). -/
def positions (numRows numCols k : ℕ) : List (ℕ × ℕ) :=
  offsets (numRows - k + 1) (numCols - k + 1)

/-- Model of `find_flattest_subarray` of 2height_maps.py: reject sizes larger
than the grid, scan every candidate window, and print-and-quit when no window
passed the water constraint. -/
noncomputable def find_flattest_subarray (g : Grid) (w : Mask) (k : ℕ) :
    Except PyError SearchResult :=
  if k > g.rows ∨ k > g.cols then .error .valueError
  else
    match scanLoop g w k (positions g.rows g.cols k) none with
    | .error e => .error e
    | .ok none => .error .noValidSite
    | .ok (some b) => .ok b

/-- Python `int()` on a rational: truncation toward zero. -/
def int_trunc (q : ℚ) : ℤ := if 0 ≤ q then ⌊q⌋ else ⌈q⌉

/-- Median of a list as `np.median` computes it: sort, then take the middle
element (odd length) or the mean of the two middle elements (even length). -/
def medianList (xs : List ℚ) : ℚ :=
  let s := xs.insertionSort (· ≤ ·)
  let n := xs.length
  if n % 2 = 1 then s.getD (n / 2) 0
  else (s.getD (n / 2 - 1) 0 + s.getD (n / 2) 0) / 2

/-- Population variance, so that `np.std xs = sqrt (varianceQ xs)`. -/
def varianceQ (xs : List ℚ) : ℚ := meanQ (xs.map fun x => (x - meanQ xs) ^ 2)

/-- Model of `smooth_heightmap` of heightmap.py: each cell is replaced by the
median of its window (edge-padded, `np.pad` with mode edge) whenever it is more
than `threshold` local standard deviations away from that median.  The source
stores the float median back into an integer numpy array, which truncates;
the claims below never depend on the smoothed values. -/
noncomputable def smooth_heightmap (g : Grid) (window_size threshold : ℕ) : Grid :=
  { rows := g.rows
    cols := g.cols
    entry := fun i j =>
      let pad := window_size / 2
      let vals := (List.range window_size).flatMap fun a =>
        (List.range window_size).map fun b =>
          g.entry (min (g.rows - 1) (i + a - pad)) (min (g.cols - 1) (j + b - pad))
      let med := medianList vals
      if ((|g.entry i j - med| : ℚ) : ℝ) >
          (threshold : ℝ) * Real.sqrt (varianceQ vals) then med
      else g.entry i j }

/-- Tree-clearing placements of heightmap.py: for every column of the chosen
window expanded by `margin`, 20 air blocks are placed from the smoothed local
height upward; the world x/z come from the build-area origin. -/
noncomputable def clearPlacements (startX startZ : ℤ) (sm : Grid)
    (numRows numCols r c k margin : ℕ) : List (ℤ × ℤ × ℤ) :=
  (List.range' (r - margin) (min numRows (r + k + margin) - (r - margin))).flatMap
    fun dx =>
      (List.range' (c - margin) (min numCols (c + k + margin) - (c - margin))).flatMap
        fun dz =>
          (List.range 20).map fun t =>
            ((startX + dx : ℤ), int_trunc (sm.entry dx dz) + t, (startZ + dz : ℤ))

/-- Model of `find_flattest_subarray` of heightmap.py: the same scan as
2height_maps.py, followed by a tree check on the chosen window; when leaves are
present the script smooths the heightmap (window 7, threshold 2) and places air
blocks over the window expanded by a margin of 3.  The returned pair is the
search result together with the list of block placements performed. -/
noncomputable def find_flattest_subarray_hm (g : Grid) (w l : Mask) (k : ℕ)
    (startX startZ : ℤ) :
    Except PyError (SearchResult × List (ℤ × ℤ × ℤ)) :=
  if k > g.rows ∨ k > g.cols then .error .valueError
  else
    match scanLoop g w k (positions g.rows g.cols k) none with
    | .error e => .error e
    | .ok none => .error .noValidSite
    | .ok (some b) =>
        if anyLeaves l b.pos.1 b.pos.2 k then
          .ok (b, clearPlacements startX startZ (smooth_heightmap g 7 2)
            g.rows g.cols b.pos.1 b.pos.2 k 3)
        else .ok (b, [])

/-- Window size test.py actually scans with: when the requested size plus twice
the border margin (4) exceeds a grid dimension, the size is reduced to
`min(num_rows, num_cols) - 2 * border_margin`. -/
def effectiveSize (numRows numCols k : ℕ) : ℕ :=
  if k + 8 > numRows ∨ k + 8 > numCols then min numRows numCols - 8 else k

/-- Candidate offsets of test.py: rows `range(4, num_rows - k - 4 + 1)` and
columns `range(4, num_cols - k - 4 + 1)`, keeping 4 cells from every border. -/
def positionsM (numRows numCols k : ℕ) : List (ℕ × ℕ) :=
  (List.range' 4 (numRows - k - 4 + 1 - 4)).flatMap fun r =>
    (List.range' 4 (numCols - k - 4 + 1 - 4)).map fun c => (r, c)

/-- Model of `find_flattest_subarray` of test.py, projected to the returned
`flattest_position`.  When the requested size does not fit with the margins the
size is reduced (ValueError only if the reduced size is below 4); the scan then
runs over the margin-restricted offsets with the same update as the other
variants.  The source also returns the smoothed heightmap and the chosen
window, and clears trees like heightmap.py; those parts play no role in the
claims about the returned offset. -/
noncomputable def find_flattest_subarray_test (g : Grid) (w : Mask) (k : ℕ) :
    Except PyError (ℕ × ℕ) :=
  if (k + 8 > g.rows ∨ k + 8 > g.cols) ∧ min g.rows g.cols - 8 < 4 then
    .error .valueError
  else
    match scanLoop g w (effectiveSize g.rows g.cols k)
        (positionsM g.rows g.cols (effectiveSize g.rows g.cols k)) none with
    | .error e => .error e
    | .ok none => .error .noValidSite
    | .ok (some b) => .ok b.pos

/-- Loop body of cozy_cottage.py's `find_best_location`: windows whose mean
height lies outside 60..100 are skipped (`continue`), otherwise the plain
minimum-gradient update runs; there is no water test and the best position
starts at `(0, 0)`. -/
noncomputable def updateBestCozy (g : Grid) (k : ℕ)
    (acc : (ℕ × ℕ) × Option ℝ) (p : ℕ × ℕ) : (ℕ × ℕ) × Option ℝ :=
  if avgHeight g p.1 p.2 k < 60 ∨ 100 < avgHeight g p.1 p.2 k then acc
  else
    match acc.2 with
    | none => (p, some (avgGradient g p.1 p.2 k))
    | some m =>
        if avgGradient g p.1 p.2 k < m then (p, some (avgGradient g p.1 p.2 k))
        else acc

/-- Loop driver for cozy_cottage.py; as in the other scripts `np.gradient` is
evaluated before the skip test, so k < 2 raises on the first window. -/
noncomputable def cozyLoop (g : Grid) (k : ℕ) :
    List (ℕ × ℕ) → (ℕ × ℕ) × Option ℝ → Except PyError ((ℕ × ℕ) × Option ℝ)
  | [], acc => .ok acc
  | p :: ps, acc =>
      if k < 2 then .error .gradientValueError
      else cozyLoop g k ps (updateBestCozy g k acc p)

/-- Model of `find_best_location` of cozy_cottage.py, projected to
`best_position` and the height looked up there (the source returns
`(STARTX + col, STARTZ + row, large_array[best_position])`). -/
noncomputable def find_best_location (g : Grid) (k : ℕ) :
    Except PyError ((ℕ × ℕ) × ℚ) :=
  if k > g.rows ∨ k > g.cols then .error .valueError
  else
    match cozyLoop g k (positions g.rows g.cols k) ((0, 0), none) with
    | .error e => .error e
    | .ok acc => .ok (acc.1, g.entry acc.1.1 acc.1.2)

/-- Loop body of new_cottage.py's `find_best_location`: as cozy_cottage.py but
with no height band. -/
noncomputable def updateBestNew (g : Grid) (k : ℕ)
    (acc : (ℕ × ℕ) × Option ℝ) (p : ℕ × ℕ) : (ℕ × ℕ) × Option ℝ :=
  match acc.2 with
  | none => (p, some (avgGradient g p.1 p.2 k))
  | some m =>
      if avgGradient g p.1 p.2 k < m then (p, some (avgGradient g p.1 p.2 k))
      else acc

/-- Loop driver for new_cottage.py. -/
noncomputable def newLoop (g : Grid) (k : ℕ) :
    List (ℕ × ℕ) → (ℕ × ℕ) × Option ℝ → Except PyError ((ℕ × ℕ) × Option ℝ)
  | [], acc => .ok acc
  | p :: ps, acc =>
      if k < 2 then .error .gradientValueError
      else newLoop g k ps (updateBestNew g k acc p)

/-- Model of `find_best_location` of new_cottage.py, projected like the cozy
variant. -/
noncomputable def find_best_location_new (g : Grid) (k : ℕ) :
    Except PyError ((ℕ × ℕ) × ℚ) :=
  if k > g.rows ∨ k > g.cols then .error .valueError
  else
    match newLoop g k (positions g.rows g.cols k) ((0, 0), none) with
    | .error e => .error e
    | .ok acc => .ok (acc.1, g.entry acc.1.1 acc.1.2)

/-- Modelled from the spec: the row-axis discrete gradient the specification
describes ("central-difference in both axes"), written independently of the
source pipeline: central differences where both neighbours exist, one-sided
differences on the boundary rows. -/
def specCentralDiffRow (g : Grid) (r c k i j : ℕ) : ℚ :=
  if 0 < i ∧ i < k - 1 then
    (g.entry (r + i + 1) (c + j) - g.entry (r + i - 1) (c + j)) / 2
  else if i = 0 then g.entry (r + 1) (c + j) - g.entry r (c + j)
  else g.entry (r + k - 1) (c + j) - g.entry (r + k - 2) (c + j)

/-- Modelled from the spec: the column-axis discrete gradient, as
`specCentralDiffRow` along the other axis. -/
def specCentralDiffCol (g : Grid) (r c k i j : ℕ) : ℚ :=
  if 0 < j ∧ j < k - 1 then
    (g.entry (r + i) (c + j + 1) - g.entry (r + i) (c + j - 1)) / 2
  else if j = 0 then g.entry (r + i) (c + 1) - g.entry (r + i) c
  else g.entry (r + i) (c + k - 1) - g.entry (r + i) (c + k - 2)

/-- Modelled from the spec: "gradient magnitude per cell = sqrt(gx^2+gy^2);
score = mean over the sub-grid", written as a direct double sum over the k*k
cells divided by the cell count. -/
noncomputable def specWindowScore (g : Grid) (r c k : ℕ) : ℝ :=
  (∑ i ∈ Finset.range k, ∑ j ∈ Finset.range k,
      Real.sqrt ((specCentralDiffCol g r c k i j : ℝ) ^ 2 +
        (specCentralDiffRow g r c k i j : ℝ) ^ 2)) / (k * k : ℝ)

/-- Row-major (lexicographic) strict order on offsets. -/
def lexLT (p q : ℕ × ℕ) : Prop := p.1 < q.1 ∨ (p.1 = q.1 ∧ p.2 < q.2)

/-- The window at offset `p` passes the water constraint. -/
def validAt (w : Mask) (k : ℕ) (p : ℕ × ℕ) : Prop :=
  waterAllZero w p.1 p.2 k = true

/-- Invariant of the scan accumulator after the loop body has run on the
offsets of `seen` (in order): either no seen window passed the water test and
the accumulator is still `none`, or the accumulator holds the first seen
window attaining the minimum score among the valid seen windows (strictly
below every valid window before it, at most every valid window after it). -/
def InvAcc (g : Grid) (w : Mask) (k : ℕ) (seen : List (ℕ × ℕ)) :
    Option SearchResult → Prop
  | none => ∀ q ∈ seen, ¬ validAt w k q
  | some b => b.score = avgGradient g b.pos.1 b.pos.2 k ∧
      b.maxVal = windowMax g b.pos.1 b.pos.2 k ∧
      validAt w k b.pos ∧
      ∃ s₁ s₂, seen = s₁ ++ b.pos :: s₂ ∧
        (∀ q ∈ s₁, validAt w k q → b.score < avgGradient g q.1 q.2 k) ∧
        (∀ q ∈ s₂, validAt w k q → b.score ≤ avgGradient g q.1 q.2 k)

/-- All-land water mask. -/
def mask0 : Mask := fun _ _ => 0

/-- All-water mask (every cell of `MOTION_BLOCKING - OCEAN_FLOOR` positive). -/
def mask1 : Mask := fun _ _ => 1

/-- Mask with water exactly at cell (0,0). -/
def maskTopLeft : Mask := fun i j => if i = 0 ∧ j = 0 then 1 else 0

/-- Mask with water exactly at the centre cell (1,1) (the spec's 3-by-3
failure example). -/
def maskCenter : Mask := fun i j => if i = 1 ∧ j = 1 then 1 else 0

/-- A 1-by-1 grid of elevation 5. -/
def cxG1 : Grid := ⟨1, 1, fun _ _ => 5⟩

/-- A 1-by-1 grid of elevation 70 (inside the cottage height band). -/
def cxG1h : Grid := ⟨1, 1, fun _ _ => 70⟩

/-- A flat 2-by-3 grid. -/
def cxG23 : Grid := ⟨2, 3, fun _ _ => 7⟩

/-- A flat 2-by-2 grid. -/
def wGsq : Grid := ⟨2, 2, fun _ _ => 9⟩

/-- A flat 3-by-3 grid of elevation 5 (the spec's failure example). -/
def wG3 : Grid := ⟨3, 3, fun _ _ => 5⟩

/-- The spec's 4-by-4 example: constant elevation 10 with a spike of 20 at
cell (3,3). -/
def wGSpike : Grid := ⟨4, 4, fun i j => if i = 3 ∧ j = 3 then 20 else 10⟩

/-- A flat 13-by-13 grid of elevation 70. -/
def cxG13 : Grid := ⟨13, 13, fun _ _ => 70⟩

/-- A flat 20-by-20 grid of elevation 70. -/
def cxG20 : Grid := ⟨20, 20, fun _ _ => 70⟩

/-- A flat 2-by-2 grid of elevation 5 (below the cottage height band). -/
def wGLow : Grid := ⟨2, 2, fun _ _ => 5⟩

/-! ### Helper lemmas about the candidate offset lists -/

lemma mem_offsets {nr nc : ℕ} {p : ℕ × ℕ} :
    p ∈ offsets nr nc ↔ p.1 < nr ∧ p.2 < nc := by
  obtain ⟨r, c⟩ := p
  simp only [offsets, List.mem_flatMap, List.mem_map, List.mem_range]
  constructor
  · rintro ⟨a, ha, b, hb, h⟩
    obtain ⟨rfl, rfl⟩ := Prod.mk.injEq a b r c ▸ h
    exact ⟨ha, hb⟩
  · rintro ⟨h1, h2⟩
    exact ⟨r, h1, c, h2, rfl⟩

lemma pairwise_offsets (nr nc : ℕ) : (offsets nr nc).Pairwise lexLT := by
  unfold offsets
  rw [List.pairwise_flatMap]
  constructor
  · intro a _
    rw [List.pairwise_map]
    exact (List.pairwise_lt_range nc).imp fun h => Or.inr ⟨rfl, h⟩
  · refine (List.pairwise_lt_range nr).imp ?_
    intro a b hab x hx y hy
    simp only [List.mem_map, List.mem_range] at hx hy
    obtain ⟨cx, _, rfl⟩ := hx
    obtain ⟨cy, _, rfl⟩ := hy
    exact Or.inl hab

lemma mem_positions {numRows numCols k : ℕ} {p : ℕ × ℕ}
    (hR : k ≤ numRows) (hC : k ≤ numCols) :
    p ∈ positions numRows numCols k ↔
      p.1 + k ≤ numRows ∧ p.2 + k ≤ numCols := by
  rw [positions, mem_offsets]
  omega

lemma mem_positionsM {numRows numCols k : ℕ} {p : ℕ × ℕ} :
    p ∈ positionsM numRows numCols k ↔
      (4 ≤ p.1 ∧ p.1 < 4 + (numRows - k - 4 + 1 - 4)) ∧
      (4 ≤ p.2 ∧ p.2 < 4 + (numCols - k - 4 + 1 - 4)) := by
  obtain ⟨r, c⟩ := p
  simp only [positionsM, List.mem_flatMap, List.mem_map, List.mem_range'_1]
  constructor
  · rintro ⟨a, ha, b, hb, h⟩
    obtain ⟨rfl, rfl⟩ := Prod.mk.injEq a b r c ▸ h
    exact ⟨ha, hb⟩
  · rintro ⟨h1, h2⟩
    exact ⟨r, h1, c, h2, rfl⟩

/-! ### The scan invariant -/

lemma invAcc_update {g : Grid} {w : Mask} {k : ℕ} {seen : List (ℕ × ℕ)}
    {acc : Option SearchResult} (p : ℕ × ℕ) (h : InvAcc g w k seen acc) :
    InvAcc g w k (seen ++ [p]) (updateBest g w k acc p) := by
  cases acc with
  | none =>
      simp only [updateBest]
      by_cases hw : waterAllZero w p.1 p.2 k
      · rw [if_pos hw]
        refine ⟨rfl, rfl, hw, seen, [], by simp, ?_, by simp⟩
        intro q hq hv
        exact absurd hv (h q hq)
      · rw [if_neg hw]
        intro q hq
        rcases List.mem_append.1 hq with h1 | h1
        · exact h q h1
        · rw [List.mem_singleton.1 h1]
          exact hw
  | some b =>
      obtain ⟨hs, hm, hv, s₁, s₂, hsplit, h₁, h₂⟩ := h
      simp only [updateBest]
      by_cases hc : avgGradient g p.1 p.2 k < b.score ∧ waterAllZero w p.1 p.2 k
      · rw [if_pos hc]
        obtain ⟨hlt, hw⟩ := hc
        refine ⟨rfl, rfl, hw, seen, [], by simp, ?_, by simp⟩
        intro q hq hvq
        rw [hsplit] at hq
        rcases List.mem_append.1 hq with hq1 | hq2
        · exact lt_trans hlt (h₁ q hq1 hvq)
        · rcases List.mem_cons.1 hq2 with rfl | hq3
          · exact hs ▸ hlt
          · exact lt_of_lt_of_le hlt (h₂ q hq3 hvq)
      · rw [if_neg hc]
        refine ⟨hs, hm, hv, s₁, s₂ ++ [p], by rw [hsplit]; simp, h₁, ?_⟩
        intro q hq hvq
        rcases List.mem_append.1 hq with hq1 | hq2
        · exact h₂ q hq1 hvq
        · rw [List.mem_singleton.1 hq2] at hvq ⊢
          exact le_of_not_lt fun hl => hc ⟨hl, hvq⟩

lemma invAcc_foldl (g : Grid) (w : Mask) (k : ℕ) (L : List (ℕ × ℕ)) :
    ∀ seen acc, InvAcc g w k seen acc →
      InvAcc g w k (seen ++ L) (L.foldl (updateBest g w k) acc) := by
  induction L with
  | nil => intro seen acc h; simpa using h
  | cons p ps ih =>
      intro seen acc h
      have h2 := invAcc_update p h
      have h3 := ih (seen ++ [p]) (updateBest g w k acc p) h2
      simpa using h3

lemma scanLoop_eq {g : Grid} {w : Mask} {k : ℕ} (hk : 2 ≤ k)
    (L : List (ℕ × ℕ)) (acc : Option SearchResult) :
    scanLoop g w k L acc = .ok (L.foldl (updateBest g w k) acc) := by
  induction L generalizing acc with
  | nil => rfl
  | cons p ps ih =>
      rw [scanLoop, if_neg (by omega), List.foldl_cons]
      exact ih (updateBest g w k acc p)

lemma scanLoop_error {g : Grid} {w : Mask} {k : ℕ} {L : List (ℕ × ℕ)}
    {acc : Option SearchResult} {e : PyError}
    (h : scanLoop g w k L acc = .error e) : e = .gradientValueError := by
  induction L generalizing acc with
  | nil => exact absurd h (by simp [scanLoop])
  | cons p ps ih =>
      rw [scanLoop] at h
      by_cases hk : k < 2
      · rw [if_pos hk] at h
        exact (Except.error.inj h).symm
      · rw [if_neg hk] at h
        exact ih h

lemma invAcc_nil (g : Grid) (w : Mask) (k : ℕ) : InvAcc g w k [] none :=
  fun q hq => absurd hq (List.not_mem_nil q)

lemma invAcc_mem {g : Grid} {w : Mask} {k : ℕ} {seen : List (ℕ × ℕ)}
    {b : SearchResult} (h : InvAcc g w k seen (some b)) : b.pos ∈ seen := by
  obtain ⟨_, _, _, s₁, s₂, hsplit, _, _⟩ := h
  rw [hsplit]
  exact List.mem_append.2 (Or.inr (List.mem_cons_self _ _))

lemma invAcc_min {g : Grid} {w : Mask} {k : ℕ} {seen : List (ℕ × ℕ)}
    {b : SearchResult} (h : InvAcc g w k seen (some b)) :
    ∀ q ∈ seen, validAt w k q → b.score ≤ avgGradient g q.1 q.2 k := by
  obtain ⟨hs, _, _, s₁, s₂, hsplit, h₁, h₂⟩ := h
  intro q hq hv
  rw [hsplit] at hq
  rcases List.mem_append.1 hq with hq1 | hq2
  · exact le_of_lt (h₁ q hq1 hv)
  · rcases List.mem_cons.1 hq2 with rfl | hq3
    · rw [hs]
    · exact h₂ q hq3 hv

lemma lexLT_asymm {p q : ℕ × ℕ} (h1 : lexLT p q) (h2 : lexLT q p) : False := by
  rcases h1 with h1 | ⟨e1, l1⟩ <;> rcases h2 with h2 | ⟨e2, l2⟩ <;> omega

/-- When the accumulator satisfies the invariant over a duplicate-free
row-major list, and `p` is a valid minimum-score offset that is first in
row-major order among the valid minimum-score offsets, the accumulator holds
exactly `p`. -/
lemma invAcc_first {g : Grid} {w : Mask} {k : ℕ} {seen : List (ℕ × ℕ)}
    {b : SearchResult} (h : InvAcc g w k seen (some b))
    (hpw : seen.Pairwise lexLT) {p : ℕ × ℕ} (hp : p ∈ seen)
    (hv : validAt w k p)
    (hmin : ∀ q ∈ seen, validAt w k q →
      avgGradient g p.1 p.2 k ≤ avgGradient g q.1 q.2 k)
    (hfirst : ∀ q ∈ seen, validAt w k q →
      avgGradient g q.1 q.2 k = avgGradient g p.1 p.2 k → p = q ∨ lexLT p q) :
    b.pos = p ∧ b.score = avgGradient g p.1 p.2 k := by
  have hble : b.score ≤ avgGradient g p.1 p.2 k := invAcc_min h p hp hv
  obtain ⟨hs, hm, hbv, s₁, s₂, hsplit, h₁, h₂⟩ := h
  have hbmem : b.pos ∈ seen := by
    rw [hsplit]
    exact List.mem_append.2 (Or.inr (List.mem_cons_self _ _))
  have hple : avgGradient g p.1 p.2 k ≤ b.score := by
    rw [hs]
    exact hmin b.pos hbmem hbv
  have heq : b.score = avgGradient g p.1 p.2 k := le_antisymm hble hple
  rw [hsplit] at hp
  rcases List.mem_append.1 hp with hp1 | hp2
  · exfalso
    have := h₁ p hp1 hv
    rw [heq] at this
    exact lt_irrefl _ this
  rcases List.mem_cons.1 hp2 with rfl | hp3
  · exact ⟨rfl, heq⟩
  · exfalso
    have hlex : lexLT b.pos p := by
      rw [hsplit] at hpw
      have hpair := (List.pairwise_append.1 hpw).2.1
      exact (List.pairwise_cons.1 hpair).1 p hp3
    have hgeq : avgGradient g b.pos.1 b.pos.2 k = avgGradient g p.1 p.2 k :=
      hs.symm.trans heq
    rcases hfirst b.pos hbmem hbv hgeq with heqp | hlex2
    · rw [heqp] at hlex
      rcases hlex with hx | ⟨_, hx⟩ <;> exact lt_irrefl _ hx
    · exact lexLT_asymm hlex hlex2

/-- Outcome of the full search for a window size at least 2 that fits the
grid: either no candidate window passes the water test and the search fails
with `noValidSite`, or it returns a result satisfying the scan invariant over
the full candidate list. -/
lemma find_flattest_spec (g : Grid) (w : Mask) (k : ℕ) (h2 : 2 ≤ k)
    (hR : k ≤ g.rows) (hC : k ≤ g.cols) :
    (find_flattest_subarray g w k = .error .noValidSite ∧
      ∀ q ∈ positions g.rows g.cols k, ¬ validAt w k q) ∨
    (∃ b, find_flattest_subarray g w k = .ok b ∧
      InvAcc g w k (positions g.rows g.cols k) (some b)) := by
  have hinv : InvAcc g w k (positions g.rows g.cols k)
      ((positions g.rows g.cols k).foldl (updateBest g w k) none) := by
    simpa using invAcc_foldl g w k (positions g.rows g.cols k) [] none
      (invAcc_nil g w k)
  unfold find_flattest_subarray
  rw [if_neg (by omega), scanLoop_eq h2]
  cases hres : (positions g.rows g.cols k).foldl (updateBest g w k) none with
  | none =>
      left
      rw [hres] at hinv
      exact ⟨rfl, hinv⟩
  | some b =>
      right
      rw [hres] at hinv
      exact ⟨b, rfl, hinv⟩

/-! ### Score facts -/

lemma avgGradient_nonneg (g : Grid) (r c k : ℕ) : 0 ≤ avgGradient g r c k := by
  unfold avgGradient
  apply div_nonneg
  · apply Finset.sum_nonneg
    intro i _
    apply Finset.sum_nonneg
    intro j _
    exact Real.sqrt_nonneg _
  · positivity

lemma gradRow_const {g : Grid} {r c k : ℕ} {v : ℚ}
    (h : ∀ i ≤ k, ∀ j ≤ k, subEntry g r c i j = v) {i j : ℕ}
    (hi : i < k) (hj : j < k) : gradRow g r c k i j = 0 := by
  unfold gradRow
  split_ifs with h1 h2
  · rw [h 1 (by omega) j (by omega), h 0 (by omega) j (by omega)]
    ring
  · rw [h (k - 1) (by omega) j (by omega), h (k - 2) (by omega) j (by omega)]
    ring
  · rw [h (i + 1) (by omega) j (by omega), h (i - 1) (by omega) j (by omega)]
    ring

lemma gradCol_const {g : Grid} {r c k : ℕ} {v : ℚ}
    (h : ∀ i ≤ k, ∀ j ≤ k, subEntry g r c i j = v) {i j : ℕ}
    (hi : i < k) (hj : j < k) : gradCol g r c k i j = 0 := by
  unfold gradCol
  split_ifs with h1 h2
  · rw [h i (by omega) 1 (by omega), h i (by omega) 0 (by omega)]
    ring
  · rw [h i (by omega) (k - 1) (by omega), h i (by omega) (k - 2) (by omega)]
    ring
  · rw [h i (by omega) (j + 1) (by omega), h i (by omega) (j - 1) (by omega)]
    ring

lemma avgGradient_const {g : Grid} {r c k : ℕ} {v : ℚ}
    (h : ∀ i ≤ k, ∀ j ≤ k, subEntry g r c i j = v) :
    avgGradient g r c k = 0 := by
  unfold avgGradient
  rw [Finset.sum_eq_zero, zero_div]
  intro i hi
  rw [Finset.sum_eq_zero]
  intro j hj
  rw [Finset.mem_range] at hi hj
  unfold gradMagnitude
  rw [gradRow_const h hi hj, gradCol_const h hi hj]
  simp

lemma gradRow_eq_spec {g : Grid} {r c k i j : ℕ} (hi : i < k) :
    gradRow g r c k i j = specCentralDiffRow g r c k i j := by
  rcases Nat.eq_zero_or_pos i with rfl | hpos
  · rw [gradRow, if_pos rfl, specCentralDiffRow, if_neg (by omega), if_pos rfl,
      subEntry, subEntry]
    norm_num
  · by_cases hlast : i = k - 1
    · rw [gradRow, if_neg (by omega), if_pos hlast, specCentralDiffRow,
        if_neg (by omega), if_neg (by omega), subEntry, subEntry]
      have e1 : r + (k - 1) = r + k - 1 := by omega
      have e2 : r + (k - 2) = r + k - 2 := by omega
      rw [e1, e2]
    · rw [gradRow, if_neg (by omega), if_neg hlast, specCentralDiffRow,
        if_pos ⟨hpos, by omega⟩, subEntry, subEntry]
      have e1 : r + (i + 1) = r + i + 1 := by omega
      have e2 : r + (i - 1) = r + i - 1 := by omega
      rw [e1, e2]

lemma gradCol_eq_spec {g : Grid} {r c k i j : ℕ} (hj : j < k) :
    gradCol g r c k i j = specCentralDiffCol g r c k i j := by
  rcases Nat.eq_zero_or_pos j with rfl | hpos
  · rw [gradCol, if_pos rfl, specCentralDiffCol, if_neg (by omega), if_pos rfl,
      subEntry, subEntry]
    norm_num
  · by_cases hlast : j = k - 1
    · rw [gradCol, if_neg (by omega), if_pos hlast, specCentralDiffCol,
        if_neg (by omega), if_neg (by omega), subEntry, subEntry]
      have e1 : c + (k - 1) = c + k - 1 := by omega
      have e2 : c + (k - 2) = c + k - 2 := by omega
      rw [e1, e2]
    · rw [gradCol, if_neg (by omega), if_neg hlast, specCentralDiffCol,
        if_pos ⟨hpos, by omega⟩, subEntry, subEntry]
      have e1 : c + (j + 1) = c + j + 1 := by omega
      have e2 : c + (j - 1) = c + j - 1 := by omega
      rw [e1, e2]

/-! ### Facts about the cottage loops -/

lemma cozyLoop_eq {g : Grid} {k : ℕ} (hk : 2 ≤ k) (L : List (ℕ × ℕ))
    (acc : (ℕ × ℕ) × Option ℝ) :
    cozyLoop g k L acc = .ok (L.foldl (updateBestCozy g k) acc) := by
  induction L generalizing acc with
  | nil => rfl
  | cons p ps ih =>
      rw [cozyLoop, if_neg (by omega), List.foldl_cons]
      exact ih (updateBestCozy g k acc p)

lemma newLoop_eq {g : Grid} {k : ℕ} (hk : 2 ≤ k) (L : List (ℕ × ℕ))
    (acc : (ℕ × ℕ) × Option ℝ) :
    newLoop g k L acc = .ok (L.foldl (updateBestNew g k) acc) := by
  induction L generalizing acc with
  | nil => rfl
  | cons p ps ih =>
      rw [newLoop, if_neg (by omega), List.foldl_cons]
      exact ih (updateBestNew g k acc p)

lemma cozyLoop_error {g : Grid} {k : ℕ} {L : List (ℕ × ℕ)}
    {acc : (ℕ × ℕ) × Option ℝ} {e : PyError}
    (h : cozyLoop g k L acc = .error e) : e = .gradientValueError := by
  induction L generalizing acc with
  | nil => exact absurd h (by simp [cozyLoop])
  | cons p ps ih =>
      rw [cozyLoop] at h
      by_cases hk : k < 2
      · rw [if_pos hk] at h
        exact (Except.error.inj h).symm
      · rw [if_neg hk] at h
        exact ih h

lemma newLoop_error {g : Grid} {k : ℕ} {L : List (ℕ × ℕ)}
    {acc : (ℕ × ℕ) × Option ℝ} {e : PyError}
    (h : newLoop g k L acc = .error e) : e = .gradientValueError := by
  induction L generalizing acc with
  | nil => exact absurd h (by simp [newLoop])
  | cons p ps ih =>
      rw [newLoop] at h
      by_cases hk : k < 2
      · rw [if_pos hk] at h
        exact (Except.error.inj h).symm
      · rw [if_neg hk] at h
        exact ih h

lemma cozyFold_skip (g : Grid) (k : ℕ) :
    ∀ L : List (ℕ × ℕ),
      (∀ p ∈ L, avgHeight g p.1 p.2 k < 60 ∨ 100 < avgHeight g p.1 p.2 k) →
      ∀ acc, L.foldl (updateBestCozy g k) acc = acc := by
  intro L
  induction L with
  | nil => intro _ acc; rfl
  | cons p ps ih =>
      intro h acc
      rw [List.foldl_cons]
      rw [show updateBestCozy g k acc p = acc from by
        rw [updateBestCozy, if_pos (h p (List.mem_cons_self p ps))]]
      exact ih (fun q hq => h q (List.mem_cons_of_mem p hq)) acc

lemma find_best_location_ne_noValidSite (g : Grid) (k : ℕ) :
    find_best_location g k ≠ .error .noValidSite := by
  unfold find_best_location
  by_cases hg : k > g.rows ∨ k > g.cols
  · rw [if_pos hg]
    intro h
    exact PyError.noConfusion (Except.error.inj h)
  rw [if_neg hg]
  cases hres : cozyLoop g k (positions g.rows g.cols k) ((0, 0), none) with
  | error e =>
      have he := cozyLoop_error hres
      subst he
      intro h
      exact PyError.noConfusion (Except.error.inj h)
  | ok acc =>
      intro h
      cases h

lemma find_best_location_new_ne_noValidSite (g : Grid) (k : ℕ) :
    find_best_location_new g k ≠ .error .noValidSite := by
  unfold find_best_location_new
  by_cases hg : k > g.rows ∨ k > g.cols
  · rw [if_pos hg]
    intro h
    exact PyError.noConfusion (Except.error.inj h)
  rw [if_neg hg]
  cases hres : newLoop g k (positions g.rows g.cols k) ((0, 0), none) with
  | error e =>
      have he := newLoop_error hres
      subst he
      intro h
      exact PyError.noConfusion (Except.error.inj h)
  | ok acc =>
      intro h
      cases h

/-! ### Claim theorems -/

/-- C1 (amended: window size at least 2, since `np.gradient` raises for a
1-sample axis): for every grid, water mask and window size k with
2 <= k <= min(rows, cols), if some k-by-k window has an all-zero water
sub-grid, then `find_flattest_subarray` returns a result whose offset is in
bounds, whose window is water-free, and whose score equals its own window
score and is at most the score of every water-free in-bounds window. -/
theorem C1_theorem (g : Grid) (w : Mask) (k : ℕ) (h2 : 2 ≤ k)
    (hR : k ≤ g.rows) (hC : k ≤ g.cols)
    (hex : ∃ r c, r + k ≤ g.rows ∧ c + k ≤ g.cols ∧
      waterAllZero w r c k = true) :
    ∃ b, find_flattest_subarray g w k = .ok b ∧
      b.pos.1 + k ≤ g.rows ∧ b.pos.2 + k ≤ g.cols ∧
      waterAllZero w b.pos.1 b.pos.2 k = true ∧
      b.score = avgGradient g b.pos.1 b.pos.2 k ∧
      ∀ r' c', r' + k ≤ g.rows → c' + k ≤ g.cols →
        waterAllZero w r' c' k = true → b.score ≤ avgGradient g r' c' k := by
  obtain ⟨r, c, hr, hc, hw⟩ := hex
  rcases find_flattest_spec g w k h2 hR hC with ⟨_, hnone⟩ | ⟨b, hok, hinv⟩
  · exact absurd hw (hnone (r, c) ((mem_positions hR hC).2 ⟨hr, hc⟩))
  · have hmemb := invAcc_mem hinv
    have hbound := (mem_positions hR hC).1 hmemb
    have hminq := invAcc_min hinv
    obtain ⟨hs, _, hv, _⟩ := hinv
    refine ⟨b, hok, hbound.1, hbound.2, hv, hs, ?_⟩
    intro r' c' hr' hc' hw'
    exact hminq (r', c') ((mem_positions hR hC).2 ⟨hr', hc'⟩) hw'

/-- C1 witness: on a flat water-free 2-by-2 grid with k = 2, the hypotheses of
`C1_theorem` hold and the conclusion follows. -/
theorem C1_witness :
    ∃ b, find_flattest_subarray wGsq mask0 2 = .ok b ∧
      b.pos.1 + 2 ≤ wGsq.rows ∧ b.pos.2 + 2 ≤ wGsq.cols ∧
      waterAllZero mask0 b.pos.1 b.pos.2 2 = true ∧
      b.score = avgGradient wGsq b.pos.1 b.pos.2 2 ∧
      ∀ r' c', r' + 2 ≤ wGsq.rows → c' + 2 ≤ wGsq.cols →
        waterAllZero mask0 r' c' 2 = true →
        b.score ≤ avgGradient wGsq r' c' 2 :=
  C1_theorem wGsq mask0 2 (by decide) (by decide) (by decide)
    ⟨0, 0, by decide, by decide, by decide⟩

/-- C1 counterexample: the claim admits k = 1, but on the 1-by-1 grid with an
all-land mask the premise (an all-zero-water 1-by-1 window exists) holds while
the code crashes inside `np.gradient` instead of returning an offset. -/
theorem C1_counterexample :
    waterAllZero mask0 0 0 1 = true ∧
      find_flattest_subarray cxG1 mask0 1 = .error .gradientValueError :=
  ⟨rfl, rfl⟩

/-- C2 (amended: window size at least 2): for 2 <= k <= min(rows, cols), the
search fails with `noValidSite` exactly when every in-bounds k-by-k window has
a nonzero water cell. -/
theorem C2_theorem (g : Grid) (w : Mask) (k : ℕ) (h2 : 2 ≤ k)
    (hR : k ≤ g.rows) (hC : k ≤ g.cols) :
    find_flattest_subarray g w k = .error .noValidSite ↔
      ∀ r c, r + k ≤ g.rows → c + k ≤ g.cols →
        waterAllZero w r c k = false := by
  rcases find_flattest_spec g w k h2 hR hC with ⟨hok, hnone⟩ | ⟨b, hok, hinv⟩
  · rw [hok]
    constructor
    · intro _ r c hr hc
      have hnv := hnone (r, c) ((mem_positions hR hC).2 ⟨hr, hc⟩)
      simpa [validAt] using hnv
    · intro _
      rfl
  · rw [hok]
    constructor
    · intro h
      cases h
    · intro hall
      exfalso
      have hmemb := invAcc_mem hinv
      have hbound := (mem_positions hR hC).1 hmemb
      obtain ⟨_, _, hv, _⟩ := hinv
      have hfalse := hall b.pos.1 b.pos.2 hbound.1 hbound.2
      rw [validAt] at hv
      rw [hv] at hfalse
      cases hfalse

/-- C2 witness: the spec's own failure example, a 3-by-3 grid with water only
at the centre cell and k = 2: every 2-by-2 window overlaps the centre, so the
search fails with `noValidSite`. -/
theorem C2_witness :
    find_flattest_subarray wG3 maskCenter 2 = .error .noValidSite := by
  apply (C2_theorem wG3 maskCenter 2 (by decide) (by decide) (by decide)).2
  intro r c hr hc
  have hr3 : r + 2 ≤ 3 := hr
  have hc3 : c + 2 ≤ 3 := hc
  have hr1 : r ≤ 1 := by omega
  have hc1 : c ≤ 1 := by omega
  interval_cases r <;> interval_cases c <;> decide

/-- C2 counterexample: the claim covers every k <= min(rows, cols), but on the
all-water 1-by-1 grid with k = 1 every candidate window has nonzero water and
the code nevertheless fails inside `np.gradient` (a ValueError), not with
`noValidSite`. -/
theorem C2_counterexample :
    waterAllZero mask1 0 0 1 = false ∧
      find_flattest_subarray cxG1 mask1 1 = .error .gradientValueError ∧
      find_flattest_subarray cxG1 mask1 1 ≠ .error .noValidSite :=
  ⟨rfl, rfl, fun h => PyError.noConfusion (Except.error.inj h)⟩

/-- C3 (for window sizes on which the source defines window scores, that is
2 <= k <= min(rows, cols)): whenever the offset `(r, c)` is water-free and in
bounds, attains the minimum score among all water-free in-bounds windows, and
is first in row-major order among those attaining the minimum, the search
returns exactly `(r, c)` with its score and window maximum. -/
theorem C3_theorem (g : Grid) (w : Mask) (k r c : ℕ) (h2 : 2 ≤ k)
    (hR : k ≤ g.rows) (hC : k ≤ g.cols)
    (hr : r + k ≤ g.rows) (hc : c + k ≤ g.cols)
    (hw : waterAllZero w r c k = true)
    (hmin : ∀ r' c', r' + k ≤ g.rows → c' + k ≤ g.cols →
      waterAllZero w r' c' k = true →
      avgGradient g r c k ≤ avgGradient g r' c' k)
    (hfirst : ∀ r' c', r' + k ≤ g.rows → c' + k ≤ g.cols →
      waterAllZero w r' c' k = true →
      avgGradient g r' c' k = avgGradient g r c k →
      (r, c) = (r', c') ∨ lexLT (r, c) (r', c')) :
    find_flattest_subarray g w k =
      .ok ⟨(r, c), avgGradient g r c k, windowMax g r c k⟩ := by
  rcases find_flattest_spec g w k h2 hR hC with ⟨_, hnone⟩ | ⟨b, hok, hinv⟩
  · exact absurd hw (hnone (r, c) ((mem_positions hR hC).2 ⟨hr, hc⟩))
  · have hpw : (positions g.rows g.cols k).Pairwise lexLT := pairwise_offsets _ _
    have hmem : ((r, c) : ℕ × ℕ) ∈ positions g.rows g.cols k :=
      (mem_positions hR hC).2 ⟨hr, hc⟩
    have hfst := invAcc_first hinv hpw hmem
      (show validAt w k (r, c) from hw)
      (fun q hq hvq => hmin q.1 q.2 ((mem_positions hR hC).1 hq).1
        ((mem_positions hR hC).1 hq).2 hvq)
      (fun q hq hvq heq => hfirst q.1 q.2 ((mem_positions hR hC).1 hq).1
        ((mem_positions hR hC).1 hq).2 hvq heq)
    obtain ⟨hbp, hbs⟩ := hfst
    obtain ⟨_, hm, _, _⟩ := hinv
    rw [hok]
    cases b with
    | mk pos score maxVal =>
        have hbp' : pos = (r, c) := hbp
        subst hbp'
        have hbs' : score = avgGradient g r c k := hbs
        have hm' : maxVal = windowMax g r c k := hm
        rw [hbs', hm']

/-- C3 witness: the spec's 4-by-4 example (constant elevation 10 with a spike
of 20 at (3,3)), all-land mask, k = 2: the search returns offset (0,0) with
score 0 (and window maximum 10). -/
theorem C3_witness :
    find_flattest_subarray wGSpike mask0 2 = .ok ⟨(0, 0), 0, 10⟩ := by
  have h0 : avgGradient wGSpike 0 0 2 = 0 :=
    @avgGradient_const wGSpike 0 0 2 10 (by decide)
  have hmax : windowMax wGSpike 0 0 2 = 10 := by decide
  have hmain := C3_theorem wGSpike mask0 2 0 0 (by decide) (by decide)
    (by decide) (by decide) (by decide) (by decide)
    (by
      intro r' c' _ _ _
      rw [h0]
      exact avgGradient_nonneg wGSpike r' c' 2)
    (by
      intro r' c' _ _ _ _
      rcases Nat.eq_zero_or_pos r' with rfl | hr'
      · rcases Nat.eq_zero_or_pos c' with rfl | hc'
        · exact Or.inl rfl
        · exact Or.inr (Or.inr ⟨rfl, hc'⟩)
      · exact Or.inr (Or.inl hr'))
  rw [h0, hmax] at hmain
  exact hmain

/-- C4: for every in-bounds offset, the score the search computes through the
numpy pipeline (gradient components, per-cell magnitude, `np.mean`) equals the
spec's formula: the mean over the k*k cells of sqrt(gx^2 + gy^2) with
central-difference gradients along each axis. -/
theorem C4_theorem (g : Grid) (r c k : ℕ) (_hr : r + k ≤ g.rows)
    (_hc : c + k ≤ g.cols) :
    avgGradient g r c k = specWindowScore g r c k := by
  unfold avgGradient specWindowScore
  rw [pow_two]
  congr 1
  refine Finset.sum_congr rfl ?_
  intro i hi
  refine Finset.sum_congr rfl ?_
  intro j hj
  rw [Finset.mem_range] at hi hj
  unfold gradMagnitude
  rw [gradRow_eq_spec hi, gradCol_eq_spec hj]

/-- C4 witness: the pipeline score and the spec score agree on the window at
(0,0) of the flat 2-by-2 grid. -/
theorem C4_witness : avgGradient wGsq 0 0 2 = specWindowScore wGsq 0 0 2 :=
  C4_theorem wGsq 0 0 2 (by decide) (by decide)

/-- C5 (amended: restricted to the heightmap.py/2height_maps.py variants; the
test.py variant shrinks the window instead): when k exceeds min(rows, cols)
both searches fail fast with the explicit ValueError, before any window is
evaluated and without any block placement. -/
theorem C5_theorem (g : Grid) (w l : Mask) (k : ℕ) (sx sz : ℤ)
    (hk : min g.rows g.cols < k) :
    find_flattest_subarray g w k = .error .valueError ∧
      find_flattest_subarray_hm g w l k sx sz = .error .valueError := by
  constructor
  · unfold find_flattest_subarray
    rw [if_pos (by omega)]
  · unfold find_flattest_subarray_hm
    rw [if_pos (by omega)]

/-- C5 witness: a 2-window on the 1-by-1 grid is rejected with ValueError by
both variants. -/
theorem C5_witness :
    find_flattest_subarray cxG1 mask0 2 = .error .valueError ∧
      find_flattest_subarray_hm cxG1 mask0 mask0 2 0 0 = .error .valueError :=
  C5_theorem cxG1 mask0 mask0 2 0 0 (by decide)

/-- C5 counterexample: on the flat 20-by-20 grid with k = 25 > 20, the test.py
variant does not fail fast: it shrinks the window to 12 and returns offset
(4, 4). -/
theorem C5_counterexample :
    min cxG20.rows cxG20.cols < 25 ∧
      find_flattest_subarray_test cxG20 mask0 25 = .ok (4, 4) :=
  ⟨by decide, rfl⟩

/-- C6 (amended: for square grids, k = rows = cols with k at least 2): the
candidate list is exactly [(0, 0)] and the search either returns a result at
offset (0, 0) or fails with `noValidSite`. -/
theorem C6_theorem (g : Grid) (w : Mask) (k : ℕ) (hsq : g.rows = g.cols)
    (hk : k = g.rows) (h2 : 2 ≤ k) :
    positions g.rows g.cols k = [(0, 0)] ∧
      ((∃ b, find_flattest_subarray g w k = .ok b ∧ b.pos = (0, 0)) ∨
        find_flattest_subarray g w k = .error .noValidSite) := by
  have h1 : g.rows - k + 1 = 1 := by omega
  have hcc : g.cols - k + 1 = 1 := by omega
  have hpos : positions g.rows g.cols k = [(0, 0)] := by
    rw [positions, h1, hcc]
    rfl
  refine ⟨hpos, ?_⟩
  rcases find_flattest_spec g w k h2 (by omega) (by omega) with
    ⟨hok, _⟩ | ⟨b, hok, hinv⟩
  · exact Or.inr hok
  · refine Or.inl ⟨b, hok, ?_⟩
    have hmemb := invAcc_mem hinv
    rw [hpos] at hmemb
    exact List.mem_singleton.1 hmemb

/-- C6 witness: on the flat water-free 2-by-2 grid with k = 2 the candidate
list is [(0, 0)] and the search resolves there. -/
theorem C6_witness :
    positions wGsq.rows wGsq.cols 2 = [(0, 0)] ∧
      ((∃ b, find_flattest_subarray wGsq mask0 2 = .ok b ∧ b.pos = (0, 0)) ∨
        find_flattest_subarray wGsq mask0 2 = .error .noValidSite) :=
  C6_theorem wGsq mask0 2 rfl rfl (by decide)

/-- C6 counterexample: on a 2-by-3 grid with k = 2 = min(rows, cols) there are
two candidate offsets, and with water at cell (0, 0) the search returns offset
(0, 1) - neither (0, 0) nor a failure. -/
theorem C6_counterexample :
    2 = min cxG23.rows cxG23.cols ∧
      positions cxG23.rows cxG23.cols 2 = [(0, 0), (0, 1)] ∧
      find_flattest_subarray cxG23 maskTopLeft 2 =
        .ok ⟨(0, 1), avgGradient cxG23 0 1 2, windowMax cxG23 0 1 2⟩ :=
  ⟨rfl, rfl, rfl⟩

/-- C7 (amended: the scan itself is pure, but heightmap.py's
`find_flattest_subarray` performs block placements when the chosen window
contains leaves): whenever the heightmap.py variant returns, the pure
2height_maps.py scan returns the same result on the same snapshot, and if the
chosen window is leaf-free no placement at all is performed. -/
theorem C7_theorem (g : Grid) (w l : Mask) (k : ℕ) (sx sz : ℤ)
    (b : SearchResult) (t : List (ℤ × ℤ × ℤ))
    (h : find_flattest_subarray_hm g w l k sx sz = .ok (b, t)) :
    find_flattest_subarray g w k = .ok b ∧
      (anyLeaves l b.pos.1 b.pos.2 k = false → t = []) := by
  unfold find_flattest_subarray_hm at h
  unfold find_flattest_subarray
  by_cases hg : k > g.rows ∨ k > g.cols
  · rw [if_pos hg] at h
    cases h
  rw [if_neg hg] at h ⊢
  cases hres : scanLoop g w k (positions g.rows g.cols k) none with
  | error e =>
      rw [hres] at h
      cases h
  | ok o =>
      cases o with
      | none =>
          rw [hres] at h
          cases h
      | some b0 =>
          rw [hres] at h
          have h2 : (if anyLeaves l b0.pos.1 b0.pos.2 k = true then
                Except.ok (b0, clearPlacements sx sz (smooth_heightmap g 7 2)
                  g.rows g.cols b0.pos.1 b0.pos.2 k 3)
              else Except.ok (b0, [])) = Except.ok (b, t) := h
          by_cases hleaf : anyLeaves l b0.pos.1 b0.pos.2 k = true
          · rw [if_pos hleaf] at h2
            injection h2 with h1
            injection h1 with hb ht
            subst hb
            subst ht
            refine ⟨rfl, ?_⟩
            intro hfalse
            rw [hleaf] at hfalse
            cases hfalse
          · rw [if_neg hleaf] at h2
            injection h2 with h1
            injection h1 with hb ht
            subst hb
            subst ht
            exact ⟨rfl, fun _ => rfl⟩

/-- C7 witness: on the flat 2-by-2 grid with no leaves, the heightmap.py
variant returns with an empty placement list and agrees with the pure scan. -/
theorem C7_witness :
    find_flattest_subarray wGsq mask0 2 =
      .ok ⟨(0, 0), avgGradient wGsq 0 0 2, windowMax wGsq 0 0 2⟩ :=
  (C7_theorem wGsq mask0 mask0 2 0 0
    ⟨(0, 0), avgGradient wGsq 0 0 2, windowMax wGsq 0 0 2⟩ [] rfl).1

/-- C7 counterexample: with leaves everywhere, heightmap.py's search places 80
air blocks (a 4-column clearing area times 20 heights) - it is not pure and
does call the placement capability. -/
theorem C7_counterexample :
    anyLeaves mask1 0 0 2 = true ∧
      Except.map (fun out => out.2.length)
        (find_flattest_subarray_hm wGsq mask0 mask1 2 0 0) = .ok 80 :=
  ⟨rfl, rfl⟩

/-- C8: the search is deterministic: two calls on identical snapshots (same
height grid, same water and leaves masks, same window size, same origin)
return identical output, offset, minimum score, window maximum and tie-break
choice included. -/
theorem C8_theorem (g g' : Grid) (w w' l l' : Mask) (k k' : ℕ)
    (sx sz sx' sz' : ℤ) (hg : g = g') (hw : w = w') (hl : l = l')
    (hk : k = k') (hsx : sx = sx') (hsz : sz = sz') :
    find_flattest_subarray g w k = find_flattest_subarray g' w' k' ∧
      find_flattest_subarray_hm g w l k sx sz =
        find_flattest_subarray_hm g' w' l' k' sx' sz' := by
  subst hg
  subst hw
  subst hl
  subst hk
  subst hsx
  subst hsz
  exact ⟨rfl, rfl⟩

/-- C8 witness: two identical calls on the flat 2-by-2 snapshot agree. -/
theorem C8_witness :
    find_flattest_subarray wGsq mask0 2 = find_flattest_subarray wGsq mask0 2 ∧
      find_flattest_subarray_hm wGsq mask0 mask0 2 0 0 =
        find_flattest_subarray_hm wGsq mask0 mask0 2 0 0 :=
  C8_theorem wGsq wGsq mask0 mask0 mask0 mask0 2 2 0 0 0 0
    rfl rfl rfl rfl rfl rfl

/-- C9 (amended: the margins hold for the effective window size, which test.py
reduces to min(rows, cols) - 8 when the requested k does not fit with the
margins): every offset test.py's search returns keeps at least 4 cells from
every border with respect to the effective window size. -/
theorem C9_theorem (g : Grid) (w : Mask) (k r c : ℕ)
    (h : find_flattest_subarray_test g w k = .ok (r, c)) :
    4 ≤ r ∧ 4 ≤ c ∧
      r + effectiveSize g.rows g.cols k + 4 ≤ g.rows ∧
      c + effectiveSize g.rows g.cols k + 4 ≤ g.cols := by
  unfold find_flattest_subarray_test at h
  by_cases hg : (k + 8 > g.rows ∨ k + 8 > g.cols) ∧ min g.rows g.cols - 8 < 4
  · rw [if_pos hg] at h
    cases h
  rw [if_neg hg] at h
  cases hres : scanLoop g w (effectiveSize g.rows g.cols k)
      (positionsM g.rows g.cols (effectiveSize g.rows g.cols k)) none with
  | error e =>
      rw [hres] at h
      cases h
  | ok o =>
      cases o with
      | none =>
          rw [hres] at h
          cases h
      | some b =>
          rw [hres] at h
          have hbp : b.pos = (r, c) := Except.ok.inj h
          have hmem : b.pos ∈
              positionsM g.rows g.cols (effectiveSize g.rows g.cols k) := by
            by_cases hk2 : 2 ≤ effectiveSize g.rows g.cols k
            · have heq := @scanLoop_eq g w (effectiveSize g.rows g.cols k) hk2
                (positionsM g.rows g.cols (effectiveSize g.rows g.cols k)) none
              rw [heq] at hres
              have hfold := Except.ok.inj hres
              have hinv : InvAcc g w (effectiveSize g.rows g.cols k)
                  (positionsM g.rows g.cols (effectiveSize g.rows g.cols k))
                  (some b) := by
                rw [← hfold]
                simpa using invAcc_foldl g w (effectiveSize g.rows g.cols k)
                  (positionsM g.rows g.cols (effectiveSize g.rows g.cols k))
                  [] none (invAcc_nil g w (effectiveSize g.rows g.cols k))
              exact invAcc_mem hinv
            · exfalso
              cases hL : positionsM g.rows g.cols
                  (effectiveSize g.rows g.cols k) with
              | nil =>
                  rw [hL, scanLoop] at hres
                  exact Option.noConfusion (Except.ok.inj hres)
              | cons p ps =>
                  rw [hL, scanLoop, if_pos (by omega)] at hres
                  cases hres
          rw [hbp] at hmem
          have hm := mem_positionsM.1 hmem
          obtain ⟨⟨h1, h2⟩, h3, h4⟩ := hm
          omega

/-- C9 witness: on the flat 13-by-13 grid with requested k = 6 (reduced to an
effective size of 5) the returned offset (4, 4) keeps the 4-cell margins. -/
theorem C9_witness :
    4 ≤ 4 ∧ 4 ≤ 4 ∧
      4 + effectiveSize cxG13.rows cxG13.cols 6 + 4 ≤ cxG13.rows ∧
      4 + effectiveSize cxG13.rows cxG13.cols 6 + 4 ≤ cxG13.cols :=
  C9_theorem cxG13 mask0 6 4 4 rfl

/-- C9 counterexample: on the flat 13-by-13 grid with requested k = 6,
test.py's search returns offset (4, 4), yet 4 + 6 + 4 > 13: the margins fail
for the requested window size (the source shrank it to 5). -/
theorem C9_counterexample :
    find_flattest_subarray_test cxG13 mask0 6 = .ok (4, 4) ∧
      ¬ (4 + 6 + 4 ≤ 13) :=
  ⟨rfl, by decide⟩

/-- C10 (amended: window size at least 2, since a 1-sample window makes
`np.gradient` raise): for 2 <= k <= min(rows, cols) the cottage searches
always return a position, cozy_cottage.py returns the default position (0, 0)
whenever every window is skipped by the height band, and neither variant can
fail with a no-valid-site error (they perform no water check at all). -/
theorem C10_theorem (g : Grid) (k : ℕ) :
    (2 ≤ k → k ≤ g.rows → k ≤ g.cols →
      (∃ out, find_best_location g k = .ok out) ∧
      (∃ out, find_best_location_new g k = .ok out) ∧
      ((∀ p ∈ positions g.rows g.cols k,
          avgHeight g p.1 p.2 k < 60 ∨ 100 < avgHeight g p.1 p.2 k) →
        find_best_location g k = .ok ((0, 0), g.entry 0 0))) ∧
    find_best_location g k ≠ .error .noValidSite ∧
    find_best_location_new g k ≠ .error .noValidSite := by
  refine ⟨?_, find_best_location_ne_noValidSite g k,
    find_best_location_new_ne_noValidSite g k⟩
  intro h2 hR hC
  have hguard : ¬ (k > g.rows ∨ k > g.cols) := by omega
  refine ⟨?_, ?_, ?_⟩
  · unfold find_best_location
    rw [if_neg hguard, cozyLoop_eq h2]
    exact ⟨_, rfl⟩
  · unfold find_best_location_new
    rw [if_neg hguard, newLoop_eq h2]
    exact ⟨_, rfl⟩
  · intro hskip
    unfold find_best_location
    rw [if_neg hguard, cozyLoop_eq h2,
      cozyFold_skip g k (positions g.rows g.cols k) hskip ((0, 0), none)]

/-- C10 witness: on the flat 2-by-2 grid of elevation 5 (below the height
band) every window is skipped and cozy_cottage.py's search returns the default
position (0, 0) with the height there. -/
theorem C10_witness : find_best_location wGLow 2 = .ok ((0, 0), 5) := by
  have h := ((C10_theorem wGLow 2).1 (by decide) (by decide) (by decide)).2.2
  refine h ?_
  intro p hp
  have hmem : p.1 < 1 ∧ p.2 < 1 := mem_offsets.1 hp
  obtain ⟨a, b⟩ := p
  obtain ⟨ha, hb⟩ := hmem
  have ha0 : a = 0 := by omega
  have hb0 : b = 0 := by omega
  subst ha0
  subst hb0
  left
  have hvals : windowVals wGLow 0 0 2 = [5, 5, 5, 5] := by decide
  show avgHeight wGLow 0 0 2 < 60
  rw [avgHeight, meanQ, hvals]
  norm_num

/-- C10 counterexample: the claim covers every k <= min(rows, cols), but with
k = 1 on a 1-by-1 grid of elevation 70 (inside the band) the cozy search
crashes in `np.gradient` instead of returning a position. -/
theorem C10_counterexample :
    find_best_location cxG1h 1 = .error .gradientValueError := rfl
